import Mathlib

/-!
# TicketApp — verification of the persistence layer and auth service

Shallow embedding of the two specced components of the TicketApp repository:

* `src/services/auth.ts` — registration, login, security-answer
  verification, password reset (the current revision, in which passwords
  are hashed raw/case-sensitively and security answers are case-folded).
* `src/services/db.ts` — IndexedDB persistence: the `users` store (keyed
  by email), the `receipts` store (keyed by id, with secondary indexes),
  and the `onupgradeneeded` schema-migration handler (DB_VERSION 4).

Modelling conventions:

* JavaScript strings are modelled by Lean `String` (Unicode code points;
  the ASCII fragment is what the app operates on).
* `String.prototype.toLowerCase` / `trim` are modelled character-wise on
  `String.data` (`Char.toLower` lowers `A`-`Z`; trimming removes the
  ASCII whitespace characters space, tab, CR, LF).
* `hashString` (SHA-256, hex-encoded) is an abstract parameter
  `hash : String → String`.  The facts the code relies on — collision
  freedom and that a hex digest is a non-empty string — appear as
  explicit hypotheses (`Function.Injective hash`, `∀ s, hash s ≠ ""`).
* The IndexedDB object stores are modelled as lists of records; a `get`
  is `List.find?` on the key, `add` rejects an existing key, `put` is an
  upsert by key, `delete` filters.  Storage/infrastructure errors
  (quota, blocked connection) are outside the model; the `Except`
  results carry exactly the domain errors the code throws.  An
  operation that throws before writing returns `.error` and, the
  embedding being functional, visibly leaves the store unchanged.
-/

namespace TicketApp

/-! ## Text helpers (ECMAScript string methods, ASCII fragment) -/

/-- `String.prototype.toLowerCase`, character-wise (`A`-`Z` ↦ `a`-`z`). -/
def toLowerCase (s : String) : String := ⟨s.data.map Char.toLower⟩

/-- `String.prototype.trim`: strip leading and trailing whitespace
(space, tab, CR, LF in the ASCII fragment). -/
def trim (s : String) : String :=
  ⟨((s.data.dropWhile Char.isWhitespace).reverse.dropWhile Char.isWhitespace).reverse⟩

/-! ## `PASSWORD_REGEX`

`/^(?=.*[a-z])(?=.*[A-Z])(?=.*\d)(?=.*[\W_]).{8,}$/` from
`src/services/auth.ts`, transcribed with ECMAScript semantics: `.`
matches any character except a line terminator, `$` (no `m` flag)
matches only at the end of the input, `\W` is the complement of
`[A-Za-z0-9_]`, and each lookahead `(?=.*X)` demands an `X`-class
character reachable from the start through `.`-matchable characters. -/

/-- ECMAScript line terminators: LF, CR, U+2028, U+2029. -/
def isLineTerminator (c : Char) : Bool :=
  c = '\n' || c = '\r' || c = '\u2028' || c = '\u2029'

/-- What the regex metacharacter `.` matches (no `s` flag). -/
def regexDot (c : Char) : Bool := !(isLineTerminator c)

/-- Character class `[a-z]`. -/
def lowerClass (c : Char) : Bool := 'a' ≤ c && c ≤ 'z'

/-- Character class `[A-Z]`. -/
def upperClass (c : Char) : Bool := 'A' ≤ c && c ≤ 'Z'

/-- Character class `\d`, i.e. `[0-9]`. -/
def digitClass (c : Char) : Bool := '0' ≤ c && c ≤ '9'

/-- Character class `\w`, i.e. `[A-Za-z0-9_]`. -/
def wordClass (c : Char) : Bool :=
  lowerClass c || upperClass c || digitClass c || c = '_'

/-- Character class `[\W_]`: anything outside `[A-Za-z0-9]`. -/
def symbolClass (c : Char) : Bool := !(wordClass c) || c = '_'

/-- The lookahead body `.*X` for a character class `X`: some `X`-class
character is reachable through `.`-matchable characters. -/
def dotStarThen (cls : Char → Bool) : List Char → Bool
  | [] => false
  | c :: cs => cls c || (regexDot c && dotStarThen cls cs)

/-- `PASSWORD_REGEX.test`: the four lookaheads, then `.{8,}$` anchored at
both ends (so every character must be `.`-matchable and there must be at
least eight of them). -/
def PASSWORD_REGEX_test (s : String) : Bool :=
  dotStarThen lowerClass s.data && dotStarThen upperClass s.data &&
  dotStarThen digitClass s.data && dotStarThen symbolClass s.data &&
  s.data.all regexDot && decide (8 ≤ s.data.length)

/-! ## Data model (`src/types.ts`) -/

/-- The fixed `Category` enumeration. -/
inductive Category where
  | grocery
  | clothing
  | electronics
  | home
  | restaurant
  | health
  | other
deriving DecidableEq, Repr

/-- `ReceiptData`.  The JS `number` fields are modelled as `ℚ`
(`totalAmount`, a decimal amount) and `ℕ` (`createdAt`, epoch
milliseconds); no claim depends on arithmetic over them. -/
structure ReceiptData where
  id : String
  userEmail : String
  storeName : String
  website : Option String
  totalAmount : ℚ
  currency : String
  date : String
  category : Category
  barcodeValue : Option String
  summary : Option String
  imageBase64 : String
  createdAt : Nat
deriving DecidableEq, Repr

/-- `User`. -/
structure User where
  email : String
  passwordHash : String
  name : String
  createdAt : Nat
  securityQuestion : Option String
  securityAnswerHash : Option String
deriving DecidableEq, Repr

/-- Domain errors thrown by `db.ts` / `auth.ts` (identified by message).
`policyViolation` = "La contraseña no cumple los requisitos…",
`duplicateAccount` = "El usuario ya existe", `userNotFound` = "Usuario
no encontrado.", `recoveryNotConfigured` = "Este usuario no tiene
configurada la recuperación.", `incorrectPassword` = "Contraseña
incorrecta.", `incorrectAnswer` = "Respuesta de seguridad incorrecta.". -/
inductive AuthError where
  | policyViolation
  | duplicateAccount
  | userNotFound
  | recoveryNotConfigured
  | incorrectPassword
  | incorrectAnswer
deriving DecidableEq, Repr

/-- The database contents: the `receipts` and `users` object stores. -/
structure DB where
  receipts : List ReceiptData
  users : List User
deriving DecidableEq, Repr

/-! ## Persistence layer (`src/services/db.ts`, DB_VERSION 4) -/

/-- `db.getUser(email)`: `store.get(email)` on the `users` store
(keyed by `email`); `undefined` becomes `none`. -/
def getUser (email : String) (db : DB) : Option User :=
  db.users.find? (fun u => u.email = email)

/-- `db.createUser(user)`: `store.add(user)`, which raises
`ConstraintError` — surfaced as the duplicate-account domain error —
exactly when the key `user.email` is already present. -/
def createUser (user : User) (db : DB) : Except AuthError DB :=
  if db.users.any (fun u => u.email = user.email) then
    .error .duplicateAccount
  else
    .ok { db with users := db.users ++ [user] }

/-- `store.put` on the `users` store: replace the record with the same
`email` key, or insert if absent. -/
def putUser (user : User) : List User → List User
  | [] => [user]
  | v :: rest => if v.email = user.email then user :: rest else v :: putUser user rest

/-- `db.updateUser(user)`: upsert by email. -/
def updateUser (user : User) (db : DB) : DB :=
  { db with users := putUser user db.users }

/-- The order imposed by the comparator `(a, b) => b.createdAt - a.createdAt`
(the comparator says "a before b" exactly when `b.createdAt ≤ a.createdAt`). -/
def createdAtDesc (a b : ReceiptData) : Prop := b.createdAt ≤ a.createdAt

instance : DecidableRel createdAtDesc :=
  fun a b => Nat.decLe b.createdAt a.createdAt

instance : IsTotal ReceiptData createdAtDesc :=
  ⟨fun a b => Nat.le_total b.createdAt a.createdAt⟩

instance : IsTrans ReceiptData createdAtDesc :=
  ⟨fun _ _ _ h1 h2 => Nat.le_trans h2 h1⟩

/-- `db.getReceiptsByUser(userEmail)`: `index('userEmail').getAll(only(userEmail))`
followed by the in-memory `results.sort((a, b) => b.createdAt - a.createdAt)`
(descending by `createdAt`; modelled by a sort producing a permutation
ordered by the comparator, which is what `Array.prototype.sort`
guarantees — stability of ties is not modelled and no claim uses it). -/
def getReceiptsByUser (userEmail : String) (db : DB) : List ReceiptData :=
  (db.receipts.filter (fun r => r.userEmail = userEmail)).insertionSort
    createdAtDesc

/-- `db.deleteReceipt(id)`: `store.delete(id)`, which succeeds whether or
not the key is present (total — no domain error exists on this path). -/
def deleteReceipt (id : String) (db : DB) : DB :=
  { db with receipts := db.receipts.filter (fun r => !(r.id = id)) }

/-! ## Auth service (`src/services/auth.ts`)

`hash` stands for `hashString` (SHA-256 of the raw input text, hex
encoded); `now` stands for `Date.now()`. -/

/-- `register(name, email, password, securityQuestion, securityAnswer)`. -/
def register (hash : String → String)
    (name email password securityQuestion securityAnswer : String)
    (now : Nat) (db : DB) : Except AuthError (User × DB) :=
  if !(PASSWORD_REGEX_test password) then
    .error .policyViolation
  else
    let cleanEmail := trim (toLowerCase email)
    let cleanAnswer := trim (toLowerCase securityAnswer)
    let hashedPassword := hash password
    let hashedAnswer := hash cleanAnswer
    let newUser : User :=
      { email := cleanEmail
        name := trim name
        passwordHash := hashedPassword
        createdAt := now
        securityQuestion := some securityQuestion
        securityAnswerHash := some hashedAnswer }
    (createUser newUser db).map (fun db' => (newUser, db'))

/-- `login(email, password)`. -/
def login (hash : String → String) (email password : String) (db : DB) :
    Except AuthError User :=
  let cleanEmail := trim (toLowerCase email)
  match getUser cleanEmail db with
  | none => .error .userNotFound
  | some user =>
    let inputHash := hash password
    if inputHash ≠ user.passwordHash then .error .incorrectPassword
    else .ok user

/-- `verifySecurityAnswer(email, answer)`.  The guard
`if (!user.securityAnswerHash)` is a JS falsy test: it fires when the
field is `undefined` *or* the empty string, so both cases are spelled
out here. -/
def verifySecurityAnswer (hash : String → String) (email answer : String) (db : DB) :
    Except AuthError User :=
  let cleanEmail := trim (toLowerCase email)
  match getUser cleanEmail db with
  | none => .error .userNotFound
  | some user =>
    match user.securityAnswerHash with
    | none => .error .recoveryNotConfigured
    | some stored =>
      if stored = "" then .error .recoveryNotConfigured
      else
        let cleanAnswer := trim (toLowerCase answer)
        if hash cleanAnswer ≠ stored then .error .incorrectAnswer
        else .ok user

/-- `resetPassword(email, newPassword)`. -/
def resetPassword (hash : String → String) (email newPassword : String) (db : DB) :
    Except AuthError DB :=
  if !(PASSWORD_REGEX_test newPassword) then
    .error .policyViolation
  else
    let cleanEmail := trim (toLowerCase email)
    match getUser cleanEmail db with
    | none => .error .userNotFound
    | some user =>
      let newHash := hash newPassword
      .ok (updateUser { user with passwordHash := newHash } db)

/-! ## Helper lemmas -/

/-- A concrete stand-in for `hashString` used in witnesses: injective and
never empty, like a hex-encoded SHA-256 digest. -/
def hW (s : String) : String := "#" ++ s

lemma hW_injective : Function.Injective hW := by
  intro a b h
  have hd : ('#' :: a.data) = ('#' :: b.data) := by
    simpa [hW, String.data_append] using congrArg String.data h
  injection hd with h1 h2
  exact String.ext h2

lemma hW_ne_empty : ∀ s, hW s ≠ "" := by
  intro s h
  simpa [hW, String.data_append] using congrArg String.data h

lemma getUser_some_email {e : String} {db : DB} {u : User}
    (h : getUser e db = some u) : u.email = e := by
  have := List.find?_some h
  simpa using this

lemma getUser_createUser {user : User} {db db' : DB}
    (h : createUser user db = .ok db') :
    db' = { db with users := db.users ++ [user] } ∧
    getUser user.email db' = some user ∧
    ∀ e, e ≠ user.email → getUser e db' = getUser e db := by
  unfold createUser at h
  cases hany : db.users.any (fun u => u.email = user.email) with
  | true => rw [hany] at h; simp at h
  | false =>
    rw [hany] at h
    simp only [Bool.false_eq_true, if_false, Except.ok.injEq] at h
    subst h
    refine ⟨rfl, ?_, ?_⟩
    · show (db.users ++ [user]).find? (fun u => u.email = user.email) = some user
      rw [List.find?_append]
      have h1 : db.users.find? (fun u => decide (u.email = user.email)) = none := by
        rw [List.find?_eq_none]
        intro x hx hpx
        have : db.users.any (fun u => u.email = user.email) = true :=
          List.any_eq_true.mpr ⟨x, hx, hpx⟩
        rw [this] at hany
        exact Bool.true_eq_false.mp hany
      rw [h1]
      rw [List.find?_cons_of_pos _ (by simp)]
      rfl
    · intro e he
      show (db.users ++ [user]).find? (fun u => u.email = e) =
        db.users.find? (fun u => u.email = e)
      rw [List.find?_append]
      have h2 : [user].find? (fun u => decide (u.email = e)) = none := by
        rw [List.find?_cons_of_neg _ (by simpa using fun h => he h.symm)]
        rfl
      rw [h2, Option.or_none]

lemma putUser_find_self (user : User) (l : List User) :
    (putUser user l).find? (fun u => u.email = user.email) = some user := by
  induction l with
  | nil =>
    show List.find? _ [user] = _
    rw [List.find?_cons_of_pos _ (by simp)]
  | cons v rest ih =>
    by_cases h : v.email = user.email
    · show List.find? _ (if v.email = user.email then user :: rest else _) = _
      rw [if_pos h, List.find?_cons_of_pos _ (by simp)]
    · show List.find? _ (if v.email = user.email then _ else v :: putUser user rest) = _
      rw [if_neg h, List.find?_cons_of_neg _ (by simpa using h)]
      exact ih

lemma putUser_find_other (user : User) (l : List User) (e : String)
    (he : e ≠ user.email) :
    (putUser user l).find? (fun u => u.email = e) =
      l.find? (fun u => u.email = e) := by
  induction l with
  | nil =>
    show List.find? _ [user] = List.find? _ []
    rw [List.find?_cons_of_neg _ (by simpa using fun h => he h.symm)]
  | cons v rest ih =>
    by_cases h : v.email = user.email
    · have hv : ¬ (v.email = e) := by rw [h]; exact fun hh => he hh.symm
      show List.find? _ (if v.email = user.email then user :: rest else _) = _
      rw [if_pos h, List.find?_cons_of_neg _ (by simpa using fun hh => he hh.symm),
        List.find?_cons_of_neg _ (by simpa using hv)]
    · show List.find? _ (if v.email = user.email then _ else v :: putUser user rest) = _
      rw [if_neg h]
      by_cases hv : v.email = e
      · rw [List.find?_cons_of_pos _ (by simpa using hv),
          List.find?_cons_of_pos _ (by simpa using hv)]
      · rw [List.find?_cons_of_neg _ (by simpa using hv),
          List.find?_cons_of_neg _ (by simpa using hv)]
        exact ih

lemma getUser_updateUser_self (user : User) (db : DB) :
    getUser user.email (updateUser user db) = some user :=
  putUser_find_self user db.users

lemma getUser_updateUser_other (user : User) (db : DB) (e : String)
    (he : e ≠ user.email) :
    getUser e (updateUser user db) = getUser e db :=
  putUser_find_other user db.users e he

lemma register_ok_inv {hash : String → String}
    {name email pw q ans : String} {now : Nat} {db : DB} {u : User} {db' : DB}
    (h : register hash name email pw q ans now db = .ok (u, db')) :
    PASSWORD_REGEX_test pw = true ∧
    u = { email := trim (toLowerCase email), name := trim name,
          passwordHash := hash pw, createdAt := now,
          securityQuestion := some q,
          securityAnswerHash := some (hash (trim (toLowerCase ans))) } ∧
    createUser u db = .ok db' := by
  unfold register at h
  cases hpol : PASSWORD_REGEX_test pw with
  | false => rw [hpol] at h; simp at h
  | true =>
    rw [hpol] at h
    simp only [Bool.not_true, Bool.false_eq_true, if_false] at h
    cases hc : createUser
        { email := trim (toLowerCase email), name := trim name,
          passwordHash := hash pw, createdAt := now,
          securityQuestion := some q,
          securityAnswerHash := some (hash (trim (toLowerCase ans))) } db with
    | error e => rw [hc] at h; simp [Except.map] at h
    | ok dbo =>
      rw [hc] at h
      simp only [Except.map, Except.ok.injEq, Prod.mk.injEq] at h
      obtain ⟨hu, hdb⟩ := h
      subst hu
      subst hdb
      exact ⟨rfl, rfl, hc⟩

lemma resetPassword_ok_inv {hash : String → String}
    {email npw : String} {db db' : DB}
    (h : resetPassword hash email npw db = .ok db') :
    PASSWORD_REGEX_test npw = true ∧
    ∃ u, getUser (trim (toLowerCase email)) db = some u ∧
      db' = updateUser { u with passwordHash := hash npw } db := by
  unfold resetPassword at h
  cases hpol : PASSWORD_REGEX_test npw with
  | false => rw [hpol] at h; simp at h
  | true =>
    rw [hpol] at h
    simp only [Bool.not_true, Bool.false_eq_true, if_false] at h
    cases hget : getUser (trim (toLowerCase email)) db with
    | none => rw [hget] at h; simp at h
    | some u =>
      rw [hget] at h
      simp only [Except.ok.injEq] at h
      exact ⟨rfl, u, rfl, h.symm⟩

lemma login_eq_of_getUser (hash : String → String) (P : String)
    {e : String} {db : DB} {u : User}
    (hget : getUser (trim (toLowerCase e)) db = some u) :
    login hash e P db =
      if hash P ≠ u.passwordHash then .error .incorrectPassword else .ok u := by
  unfold login
  simp only [hget]

lemma verify_eq_of_getUser (hash : String → String) (A : String)
    {e : String} {db : DB} {u : User} {stored : String}
    (hget : getUser (trim (toLowerCase e)) db = some u)
    (hstored : u.securityAnswerHash = some stored) (hne : stored ≠ "") :
    verifySecurityAnswer hash e A db =
      if hash (trim (toLowerCase A)) ≠ stored then .error .incorrectAnswer
      else .ok u := by
  unfold verifySecurityAnswer
  simp only [hget, hstored]
  rw [if_neg hne]

/-- `uW`, `dbW`: the database produced by a successful
`register hW "Ann" " A@X.com" "Passw0rd!" "pet" "Rex "` on an empty
store; used as concrete input by the witnesses. -/
def uW : User :=
  { email := "a@x.com", passwordHash := hW "Passw0rd!", name := "Ann",
    createdAt := 7, securityQuestion := some "pet",
    securityAnswerHash := some (hW "rex") }

def dbW : DB := { receipts := [], users := [uW] }

/-! ## C1 — login succeeds iff the password matches byte-for-byte -/

/-- C1: for a user whose stored record comes from `register` (or from the
last `resetPassword`), `login(email, P)` succeeds iff `P` is exactly
(case-sensitively, untrimmed) the password supplied there, and otherwise
fails with the incorrect-password domain error.  The injectivity
hypothesis models collision freedom of the SHA-256 hex digest. -/
theorem login_iff_exact_password (hash : String → String)
    (hinj : Function.Injective hash) :
    (∀ name email pw q ans now db u db',
      register hash name email pw q ans now db = .ok (u, db') →
      ∀ e P, trim (toLowerCase e) = trim (toLowerCase email) →
        (login hash e P db' = .ok u ↔ P = pw) ∧
        (P ≠ pw → login hash e P db' = .error .incorrectPassword)) ∧
    (∀ email pw db db',
      resetPassword hash email pw db = .ok db' →
      ∀ e P, trim (toLowerCase e) = trim (toLowerCase email) →
        ((∃ v, login hash e P db' = .ok v) ↔ P = pw) ∧
        (P ≠ pw → login hash e P db' = .error .incorrectPassword)) := by
  constructor
  · intro name email pw q ans now db u db' hreg e P he
    obtain ⟨hpol, hu, hc⟩ := register_ok_inv hreg
    obtain ⟨hdb', hself, hother⟩ := getUser_createUser hc
    have hemail : u.email = trim (toLowerCase email) := by rw [hu]
    have hget : getUser (trim (toLowerCase e)) db' = some u := by
      rw [he, ← hemail]; exact hself
    have hlog := login_eq_of_getUser hash P hget
    have hpw : u.passwordHash = hash pw := by rw [hu]
    rw [hpw] at hlog
    by_cases hPpw : P = pw
    · subst hPpw
      have hok : login hash e P db' = .ok u := by
        rw [hlog, if_neg (fun hcon => hcon rfl)]
      exact ⟨iff_of_true hok rfl, fun hne => absurd rfl hne⟩
    · have hneq : hash P ≠ hash pw := fun hh => hPpw (hinj hh)
      have herr : login hash e P db' = .error .incorrectPassword := by
        rw [hlog, if_pos hneq]
      refine ⟨⟨fun hok => ?_, fun hP => absurd hP hPpw⟩, fun _ => herr⟩
      rw [herr] at hok
      exact absurd hok (by simp)
  · intro email pw db db' hres e P he
    obtain ⟨hpol, u, hget, hdb'⟩ := resetPassword_ok_inv hres
    have hemail : u.email = trim (toLowerCase email) := getUser_some_email hget
    have hget' : getUser (trim (toLowerCase e)) db' =
        some { u with passwordHash := hash pw } := by
      rw [he, ← hemail, hdb']
      exact getUser_updateUser_self { u with passwordHash := hash pw } db
    have hlog := login_eq_of_getUser hash P hget'
    by_cases hPpw : P = pw
    · subst hPpw
      have hok : login hash e P db' = .ok { u with passwordHash := hash P } := by
        rw [hlog]
        exact if_neg (fun hcon => hcon rfl)
      exact ⟨iff_of_true ⟨_, hok⟩ rfl, fun hne => absurd rfl hne⟩
    · have hneq : hash P ≠ hash pw := fun hh => hPpw (hinj hh)
      have herr : login hash e P db' = .error .incorrectPassword := by
        rw [hlog]
        exact if_pos hneq
      refine ⟨⟨fun hok => ?_, fun hP => absurd hP hPpw⟩, fun _ => herr⟩
      obtain ⟨v, hv⟩ := hok
      rw [herr] at hv
      exact absurd hv (by simp)

/-- Witness for C1 at a concrete registration. -/
theorem login_iff_exact_password_witness :
    login hW "a@x.com" "Passw0rd!" dbW = .ok uW ∧
    login hW "a@x.com" "passw0rd!" dbW = .error .incorrectPassword := by
  have h := (login_iff_exact_password hW hW_injective).1
    "Ann" " A@X.com" "Passw0rd!" "pet" "Rex " 7 ⟨[], []⟩ uW dbW (by rfl) "a@x.com"
  exact ⟨(h "Passw0rd!" (by decide)).1.mpr rfl, (h "passw0rd!" (by decide)).2 (by decide)⟩

/-! ## C2 — security-answer verification is case/whitespace-insensitive -/

/-- C2: after registration with security answer `S`,
`verifySecurityAnswer(email, A)` succeeds iff `A.toLowerCase().trim()`
equals `S.toLowerCase().trim()`, and otherwise fails with the
incorrect-answer domain error.  The hypotheses model collision freedom
and non-emptiness of the hex digest. -/
theorem verifyAnswer_iff_normalized (hash : String → String)
    (hinj : Function.Injective hash) (hne : ∀ s, hash s ≠ "") :
    ∀ name email pw q ans now db u db',
      register hash name email pw q ans now db = .ok (u, db') →
      ∀ e A, trim (toLowerCase e) = trim (toLowerCase email) →
        (verifySecurityAnswer hash e A db' = .ok u ↔
          trim (toLowerCase A) = trim (toLowerCase ans)) ∧
        (trim (toLowerCase A) ≠ trim (toLowerCase ans) →
          verifySecurityAnswer hash e A db' = .error .incorrectAnswer) := by
  intro name email pw q ans now db u db' hreg e A he
  obtain ⟨hpol, hu, hc⟩ := register_ok_inv hreg
  obtain ⟨hdb', hself, hother⟩ := getUser_createUser hc
  have hemail : u.email = trim (toLowerCase email) := by rw [hu]
  have hget : getUser (trim (toLowerCase e)) db' = some u := by
    rw [he, ← hemail]; exact hself
  have hstored : u.securityAnswerHash = some (hash (trim (toLowerCase ans))) := by
    rw [hu]
  have hver := verify_eq_of_getUser hash A hget hstored (hne _)
  by_cases hA : trim (toLowerCase A) = trim (toLowerCase ans)
  · have hok : verifySecurityAnswer hash e A db' = .ok u := by
      rw [hver, hA, if_neg (fun hcon => hcon rfl)]
    exact ⟨iff_of_true hok hA, fun hne2 => absurd hA hne2⟩
  · have hneq : hash (trim (toLowerCase A)) ≠ hash (trim (toLowerCase ans)) :=
      fun hh => hA (hinj hh)
    have herr : verifySecurityAnswer hash e A db' = .error .incorrectAnswer := by
      rw [hver, if_pos hneq]
    refine ⟨⟨fun hok => ?_, fun hh => absurd hh hA⟩, fun _ => herr⟩
    rw [herr] at hok
    exact absurd hok (by simp)

/-- Witness for C2 at a concrete registration. -/
theorem verifyAnswer_iff_normalized_witness :
    verifySecurityAnswer hW "a@x.com" " REX" dbW = .ok uW ∧
    verifySecurityAnswer hW "a@x.com" "wolf" dbW = .error .incorrectAnswer := by
  have h := verifyAnswer_iff_normalized hW hW_injective hW_ne_empty
    "Ann" " A@X.com" "Passw0rd!" "pet" "Rex " 7 ⟨[], []⟩ uW dbW (by rfl) "a@x.com"
  exact ⟨(h " REX" (by decide)).1.mpr (by decide), (h "wolf" (by decide)).2 (by decide)⟩

/-! ## C3 — emails differing only in case/whitespace collide -/

/-- C3: a second registration whose email normalizes to that of an
existing user fails with the duplicate-account domain error, and
`createUser` raises that error exactly when a record with the same email
key is already present.  (`register` checks the password policy before
touching the store, so the second attempt is taken with a
policy-compliant password.) -/
theorem duplicate_email_collision (hash : String → String) :
    (∀ name email pw q ans now db u db',
      register hash name email pw q ans now db = .ok (u, db') →
      ∀ name2 email2 pw2 q2 ans2 now2,
        trim (toLowerCase email2) = trim (toLowerCase email) →
        PASSWORD_REGEX_test pw2 = true →
        register hash name2 email2 pw2 q2 ans2 now2 db' = .error .duplicateAccount) ∧
    (∀ user db, createUser user db = .error .duplicateAccount ↔
      ∃ v ∈ db.users, v.email = user.email) := by
  constructor
  · intro name email pw q ans now db u db' hreg name2 email2 pw2 q2 ans2 now2 he2 hpol2
    obtain ⟨hpol, hu, hc⟩ := register_ok_inv hreg
    obtain ⟨hdb', hself, hother⟩ := getUser_createUser hc
    have hmem : u ∈ db'.users := by
      rw [hdb']
      exact List.mem_append_right _ (List.mem_singleton.mpr rfl)
    have hany : db'.users.any (fun v => v.email = trim (toLowerCase email2)) = true := by
      refine List.any_eq_true.mpr ⟨u, hmem, ?_⟩
      simp only [decide_eq_true_eq]
      rw [he2, hu]
    unfold register createUser
    simp only [hpol2, Bool.not_true, Bool.false_eq_true, if_false, hany, if_true]
    rfl
  · intro user db
    unfold createUser
    cases hany : db.users.any (fun u => u.email = user.email) with
    | true =>
      rw [if_pos rfl]
      refine iff_of_true rfl ?_
      obtain ⟨v, hv, hev⟩ := List.any_eq_true.mp hany
      exact ⟨v, hv, by simpa using hev⟩
    | false =>
      rw [if_neg (by simp)]
      constructor
      · intro h
        exact absurd h (by simp)
      · rintro ⟨v, hv, hev⟩
        have : db.users.any (fun u => u.email = user.email) = true :=
          List.any_eq_true.mpr ⟨v, hv, by simpa using hev⟩
        rw [this] at hany
        exact absurd hany (by simp)

/-- Witness for C3: re-registering `"A@X.COM "` after `" A@X.com"`. -/
theorem duplicate_email_collision_witness :
    register hW "Bob" "A@X.COM " "Abcdef1!" "q2" "a2" 9 dbW = .error .duplicateAccount :=
  (duplicate_email_collision hW).1
    "Ann" " A@X.com" "Passw0rd!" "pet" "Rex " 7 ⟨[], []⟩ uW dbW (by rfl)
    "Bob" "A@X.COM " "Abcdef1!" "q2" "a2" 9 (by decide) (by decide)

/-! ## C10 — register always configures recovery -/

/-- C10: `register` hashes the security answer unconditionally, so every
registered user's record has a `securityAnswerHash` (for a whitespace-only
answer, the hash of the empty string); `verifySecurityAnswer` therefore
never raises the recovery-not-configured error for such a user, and for a
user registered with a whitespace-only answer it succeeds on every answer
that trims to the empty string.  The hypothesis models that a hex digest
is never the empty string. -/
theorem register_recovery_configured (hash : String → String)
    (hne : ∀ s, hash s ≠ "") :
    ∀ name email pw q ans now db u db',
      register hash name email pw q ans now db = .ok (u, db') →
      u.securityAnswerHash = some (hash (trim (toLowerCase ans))) ∧
      (∀ e A, trim (toLowerCase e) = trim (toLowerCase email) →
        verifySecurityAnswer hash e A db' ≠ .error .recoveryNotConfigured) ∧
      (trim (toLowerCase ans) = "" →
        ∀ e A, trim (toLowerCase e) = trim (toLowerCase email) →
          trim (toLowerCase A) = "" →
          verifySecurityAnswer hash e A db' = .ok u) := by
  intro name email pw q ans now db u db' hreg
  obtain ⟨hpol, hu, hc⟩ := register_ok_inv hreg
  obtain ⟨hdb', hself, hother⟩ := getUser_createUser hc
  have hemail : u.email = trim (toLowerCase email) := by rw [hu]
  have hstored : u.securityAnswerHash = some (hash (trim (toLowerCase ans))) := by
    rw [hu]
  refine ⟨hstored, ?_, ?_⟩
  · intro e A he
    have hget : getUser (trim (toLowerCase e)) db' = some u := by
      rw [he, ← hemail]; exact hself
    rw [verify_eq_of_getUser hash A hget hstored (hne _)]
    by_cases hcmp : hash (trim (toLowerCase A)) ≠ hash (trim (toLowerCase ans))
    · rw [if_pos hcmp]; simp
    · rw [if_neg hcmp]; simp
  · intro hans e A he hA
    have hget : getUser (trim (toLowerCase e)) db' = some u := by
      rw [he, ← hemail]; exact hself
    rw [verify_eq_of_getUser hash A hget hstored (hne _), hA, hans,
      if_neg (fun hcon => hcon rfl)]

/-- Witness for C10: a registration with a whitespace-only answer. -/
theorem register_recovery_configured_witness :
    ({ email := "e@y.com", passwordHash := hW "Abcdef1!", name := "Eve",
       createdAt := 3, securityQuestion := some "q",
       securityAnswerHash := some (hW "") } : User).securityAnswerHash =
      some (hW "") ∧
    verifySecurityAnswer hW "e@y.com" "  "
      { receipts := [],
        users := [{ email := "e@y.com", passwordHash := hW "Abcdef1!",
                    name := "Eve", createdAt := 3, securityQuestion := some "q",
                    securityAnswerHash := some (hW "") }] } =
      .ok { email := "e@y.com", passwordHash := hW "Abcdef1!", name := "Eve",
            createdAt := 3, securityQuestion := some "q",
            securityAnswerHash := some (hW "") } := by
  have h := register_recovery_configured hW hW_ne_empty
    "Eve" "e@y.com" "Abcdef1!" "q" "   " 3 ⟨[], []⟩ _ _ (by rfl)
  exact ⟨h.1, h.2.2 (by decide) "e@y.com" "  " (by decide) (by decide)⟩

/-! ## C5 — resetPassword replaces only the password hash -/

/-- C5: `resetPassword` re-validates the password policy, failing with
the policy-violation domain error (before touching the store) on a
non-compliant password; on success the stored record for that email is
the old record with only `passwordHash` replaced (`email`, `name`,
`createdAt`, `securityQuestion`, `securityAnswerHash` untouched), every
other user's record is unchanged, and the receipts store is unchanged. -/
theorem resetPassword_frame (hash : String → String) :
    (∀ email npw db, PASSWORD_REGEX_test npw = false →
      resetPassword hash email npw db = .error .policyViolation) ∧
    (∀ email npw db u, PASSWORD_REGEX_test npw = true →
      getUser (trim (toLowerCase email)) db = some u →
      resetPassword hash email npw db =
        .ok (updateUser { u with passwordHash := hash npw } db) ∧
      getUser (trim (toLowerCase email))
          (updateUser { u with passwordHash := hash npw } db) =
        some { u with passwordHash := hash npw } ∧
      (∀ e, e ≠ u.email →
        getUser e (updateUser { u with passwordHash := hash npw } db) =
          getUser e db) ∧
      (updateUser { u with passwordHash := hash npw } db).receipts =
        db.receipts) := by
  constructor
  · intro email npw db hpol
    unfold resetPassword
    simp [hpol]
  · intro email npw db u hpol hget
    have hok : resetPassword hash email npw db =
        .ok (updateUser { u with passwordHash := hash npw } db) := by
      unfold resetPassword
      simp only [hpol, Bool.not_true, Bool.false_eq_true, if_false, hget]
    have hemail : u.email = trim (toLowerCase email) := getUser_some_email hget
    refine ⟨hok, ?_, ?_, rfl⟩
    · rw [← hemail]
      exact getUser_updateUser_self { u with passwordHash := hash npw } db
    · intro e he
      exact getUser_updateUser_other { u with passwordHash := hash npw } db e he

/-- Witness for C5 at a concrete reset. -/
theorem resetPassword_frame_witness :
    resetPassword hW "a@x.com" "NewPass1!" dbW =
      .ok (updateUser { uW with passwordHash := hW "NewPass1!" } dbW) ∧
    getUser (trim (toLowerCase "a@x.com"))
        (updateUser { uW with passwordHash := hW "NewPass1!" } dbW) =
      some { uW with passwordHash := hW "NewPass1!" } := by
  have h := (resetPassword_frame hW).2 "a@x.com" "NewPass1!" dbW uW
    (by decide) (by rfl)
  exact ⟨h.1, h.2.1⟩

/-! ## C7 — the password policy -/

lemma dotStarThen_of_all {cls : Char → Bool} {cs : List Char}
    (h : cs.all regexDot = true) : dotStarThen cls cs = cs.any cls := by
  induction cs with
  | nil => rfl
  | cons c rest ih =>
    rw [List.all_cons, Bool.and_eq_true] at h
    show (cls c || (regexDot c && dotStarThen cls rest)) = (c :: rest).any cls
    rw [h.1, Bool.true_and, ih h.2, List.any_cons]

/-- C7 (amended): `PASSWORD_REGEX` accepts a password iff it has length
at least 8, contains **no line-terminator characters** (the regex's `.`
cannot match them), and contains at least one lowercase letter, one
uppercase letter, one digit and one non-alphanumeric symbol; in
particular `"Abcdef1!"` passes while `"abcdefgh"`, `"ABCDEFG1"` and
`"Abcdefg1"` fail. -/
theorem password_policy_characterization :
    (∀ s : String, PASSWORD_REGEX_test s = true ↔
      (8 ≤ s.data.length ∧ (∀ c ∈ s.data, isLineTerminator c = false) ∧
       s.data.any lowerClass = true ∧ s.data.any upperClass = true ∧
       s.data.any digitClass = true ∧ s.data.any symbolClass = true)) ∧
    PASSWORD_REGEX_test "Abcdef1!" = true ∧
    PASSWORD_REGEX_test "abcdefgh" = false ∧
    PASSWORD_REGEX_test "ABCDEFG1" = false ∧
    PASSWORD_REGEX_test "Abcdefg1" = false := by
  refine ⟨?_, by decide, by decide, by decide, by decide⟩
  intro s
  have hall : (s.data.all regexDot = true) ↔
      ∀ c ∈ s.data, isLineTerminator c = false := by
    rw [List.all_eq_true]
    constructor
    · intro h c hc
      simpa [regexDot] using h c hc
    · intro h c hc
      simp [regexDot, h c hc]
  unfold PASSWORD_REGEX_test
  simp only [Bool.and_eq_true, decide_eq_true_eq]
  constructor
  · rintro ⟨⟨⟨⟨⟨h1, h2⟩, h3⟩, h4⟩, hdot⟩, hlen⟩
    rw [dotStarThen_of_all hdot] at h1 h2 h3 h4
    exact ⟨hlen, hall.mp hdot, h1, h2, h3, h4⟩
  · rintro ⟨hlen, hno, h1, h2, h3, h4⟩
    have hdot := hall.mpr hno
    rw [dotStarThen_of_all hdot, dotStarThen_of_all hdot,
      dotStarThen_of_all hdot, dotStarThen_of_all hdot]
    exact ⟨⟨⟨⟨⟨h1, h2⟩, h3⟩, h4⟩, hdot⟩, hlen⟩

/-- Counterexample to C7 as stated: `"Abcdef1!\n"` has length ≥ 8 and all
four character classes, yet the regex rejects it (the trailing newline is
not matchable by `.`), so the claimed equivalence fails. -/
theorem password_policy_claim_counterexample :
    ¬ (PASSWORD_REGEX_test "Abcdef1!\n" = true ↔
      (8 ≤ "Abcdef1!\n".data.length ∧
       "Abcdef1!\n".data.any lowerClass = true ∧
       "Abcdef1!\n".data.any upperClass = true ∧
       "Abcdef1!\n".data.any digitClass = true ∧
       "Abcdef1!\n".data.any symbolClass = true)) := by decide

/-- Witness for C7's characterization at a concrete password. -/
theorem password_policy_characterization_witness :
    PASSWORD_REGEX_test "Xy1?zzzz" = true :=
  (password_policy_characterization.1 "Xy1?zzzz").mpr (by decide)

/-! ## C4 — receipts query: ownership and ordering -/

/-- `rA`, `rB`, `dbTie`: two receipts of the same owner sharing a
`createdAt` timestamp (the persistence layer never forbids that —
`createdAt` is just `Date.now()` at save time). -/
def rA : ReceiptData :=
  { id := "r1", userEmail := "a@x.com", storeName := "ZARA", website := none,
    totalAmount := 10, currency := "EUR", date := "2024-01-01",
    category := .clothing, barcodeValue := none, summary := none,
    imageBase64 := "img1", createdAt := 5 }

def rB : ReceiptData := { rA with id := "r2", imageBase64 := "img2" }

def dbTie : DB := { receipts := [rA, rB], users := [] }

/-- C4 (amended): `getReceiptsByUser u` returns exactly the receipts
whose `userEmail` is `u` — every returned receipt is owned by `u`, and
every stored receipt owned by `u` appears in the result — and the result
is sorted by `createdAt` in non-increasing (descending, ties allowed)
order — not *strictly* descending, since two receipts may share a
timestamp. -/
theorem getReceiptsByUser_owned_and_sorted (u : String) (db : DB) :
    (∀ r ∈ getReceiptsByUser u db, r.userEmail = u) ∧
    (∀ r ∈ db.receipts, r.userEmail = u → r ∈ getReceiptsByUser u db) ∧
    List.Pairwise (fun a b : ReceiptData => b.createdAt ≤ a.createdAt)
      (getReceiptsByUser u db) := by
  refine ⟨?_, ?_, ?_⟩
  · intro r hr
    rw [getReceiptsByUser, List.mem_insertionSort] at hr
    simpa using List.of_mem_filter hr
  · intro r hr hu
    rw [getReceiptsByUser, List.mem_insertionSort]
    exact List.mem_filter.mpr ⟨hr, by simpa using hu⟩
  · have hs := List.sorted_insertionSort createdAtDesc
      (db.receipts.filter (fun r => r.userEmail = u))
    exact hs.imp (fun h => h)

/-- Counterexample to C4 as stated: with two same-owner receipts sharing
`createdAt = 5`, the returned sequence is not strictly descending. -/
theorem getReceiptsByUser_strict_sort_counterexample :
    ¬ ((∀ r ∈ getReceiptsByUser "a@x.com" dbTie, r.userEmail = "a@x.com") ∧
      List.Pairwise (fun a b : ReceiptData => b.createdAt < a.createdAt)
        (getReceiptsByUser "a@x.com" dbTie)) := by decide

/-- Witness for C4's amended statement at a concrete store: soundness,
completeness and the ordering, each exercised on `dbTie`. -/
theorem getReceiptsByUser_owned_and_sorted_witness :
    rA.userEmail = "a@x.com" ∧
    rA ∈ getReceiptsByUser "a@x.com" dbTie ∧
    List.Pairwise (fun a b : ReceiptData => b.createdAt ≤ a.createdAt)
      (getReceiptsByUser "a@x.com" dbTie) :=
  ⟨(getReceiptsByUser_owned_and_sorted "a@x.com" dbTie).1 rA (by decide),
   (getReceiptsByUser_owned_and_sorted "a@x.com" dbTie).2.1 rA (by decide)
     (by decide),
   (getReceiptsByUser_owned_and_sorted "a@x.com" dbTie).2.2⟩

/-! ## C8 — deleting an absent receipt is a no-op -/

/-- C8: `deleteReceipt` on an id not present in the store raises no error
(it is total on the domain-error side — `IDBObjectStore.delete` succeeds
for missing keys) and leaves the database unchanged. -/
theorem deleteReceipt_absent_noop (id : String) (db : DB)
    (h : ∀ r ∈ db.receipts, r.id ≠ id) : deleteReceipt id db = db := by
  unfold deleteReceipt
  have hf : db.receipts.filter (fun r => !(r.id = id)) = db.receipts := by
    rw [List.filter_eq_self]
    intro r hr
    simpa using h r hr
  rw [hf]

/-- Witness for C8 at a concrete store. -/
theorem deleteReceipt_absent_noop_witness : deleteReceipt "zzz" dbTie = dbTie :=
  deleteReceipt_absent_noop "zzz" dbTie (by decide)

/-! ## C6 — schema migration (`openDB`'s `onupgradeneeded`) -/

/-- The state of one object store: its secondary indexes and records. -/
structure StoreState where
  indexes : List String
  records : List ReceiptData
deriving DecidableEq, Repr

/-- The schema-relevant state of the IndexedDB database: which object
stores exist (`none` = absent) and, for each, its indexes and data. -/
structure IDBState where
  receiptsStore : Option StoreState
  usersStore : Option (List User)
deriving DecidableEq, Repr

/-- The `userEmail`-index step of the v3/v4 handler:
`if (receiptStore && !receiptStore.indexNames.contains('userEmail'))
 receiptStore.createIndex('userEmail', ...)` — creating an index builds
it over the existing records without touching them. -/
def ensureIndexes (st : StoreState) : StoreState :=
  if st.indexes.contains "userEmail" then st
  else { st with indexes := st.indexes ++ ["userEmail"] }

/-- The `onupgradeneeded` handler of `openDB` at `DB_VERSION = 4`
(`src/services/db.ts`): create the `receipts` store with its `createdAt`
index if absent, otherwise take the existing store; ensure its
`userEmail` index; create the `users` store if absent. -/
def onUpgradeNeeded (s : IDBState) : IDBState :=
  { receiptsStore :=
      some (ensureIndexes
        (match s.receiptsStore with
         | none => { indexes := ["createdAt"], records := [] }
         | some st => st))
    usersStore :=
      match s.usersStore with
      | none => some []
      | some us => some us }

/-- The `onupgradeneeded` handler of the earlier `DB_VERSION = 2`
revision: ensure the `receipts` store (with its `createdAt` index) and
the `users` store; no `userEmail` index yet.  A version-2 install is a
state this handler produced, possibly with records added since. -/
def onUpgradeNeededV2 (s : IDBState) : IDBState :=
  { receiptsStore :=
      match s.receiptsStore with
      | none => some { indexes := ["createdAt"], records := [] }
      | some st => some st
    usersStore :=
      match s.usersStore with
      | none => some []
      | some us => some us }

lemma ensureIndexes_idem (st : StoreState) :
    ensureIndexes (ensureIndexes st) = ensureIndexes st := by
  unfold ensureIndexes
  by_cases hc : st.indexes.contains "userEmail" = true
  · rw [if_pos hc, if_pos hc]
  · rw [if_neg hc]
    have hc2 : (({ st with indexes := st.indexes ++ ["userEmail"] } :
        StoreState).indexes.contains "userEmail") = true := by
      simp
    rw [if_pos hc2]

/-- C6: the v4 migration is idempotent and additive — re-running it from
any state changes nothing further; for an existing `receipts` store it
preserves the records and only adds indexes; it never drops the `users`
store; a fresh install reaches the latest schema (receipts with
`createdAt` and `userEmail` indexes, plus users) in one pass; a
version-2 install reaches the latest schema in one pass with its data
intact; and applying the v4 pass after the v2 pass is the same as
applying the v4 pass directly — missing structures are ensured, not
replayed per version. -/
theorem migration_idempotent_additive :
    (∀ s, onUpgradeNeeded (onUpgradeNeeded s) = onUpgradeNeeded s) ∧
    (∀ s st, s.receiptsStore = some st →
      ∃ st', (onUpgradeNeeded s).receiptsStore = some st' ∧
        st'.records = st.records ∧ ∀ i ∈ st.indexes, i ∈ st'.indexes) ∧
    (∀ s us, s.usersStore = some us →
      (onUpgradeNeeded s).usersStore = some us) ∧
    (onUpgradeNeeded { receiptsStore := none, usersStore := none } =
      { receiptsStore := some { indexes := ["createdAt", "userEmail"],
                                records := [] },
        usersStore := some [] }) ∧
    (∀ rs us, onUpgradeNeeded
        { receiptsStore := some { indexes := ["createdAt"], records := rs },
          usersStore := some us } =
      { receiptsStore := some { indexes := ["createdAt", "userEmail"],
                                records := rs },
        usersStore := some us }) ∧
    (∀ s, onUpgradeNeeded (onUpgradeNeededV2 s) = onUpgradeNeeded s) := by
  refine ⟨?_, ?_, ?_, by rfl, fun rs us => by rfl, ?_⟩
  · intro s
    rcases s with ⟨rs, us⟩
    cases rs with
    | none =>
      cases us with
      | none => simp [onUpgradeNeeded, ensureIndexes_idem]
      | some us => simp [onUpgradeNeeded, ensureIndexes_idem]
    | some st =>
      cases us with
      | none => simp [onUpgradeNeeded, ensureIndexes_idem]
      | some us => simp [onUpgradeNeeded, ensureIndexes_idem]
  · intro s st hst
    refine ⟨ensureIndexes st, ?_, ?_, ?_⟩
    · simp [onUpgradeNeeded, hst]
    · unfold ensureIndexes
      by_cases hc : st.indexes.contains "userEmail" = true
      · rw [if_pos hc]
      · rw [if_neg hc]
    · intro i hi
      unfold ensureIndexes
      by_cases hc : st.indexes.contains "userEmail" = true
      · rw [if_pos hc]; exact hi
      · rw [if_neg hc]; exact List.mem_append_left _ hi
  · intro s us hus
    simp [onUpgradeNeeded, hus]
  · intro s
    rcases s with ⟨rs, us⟩
    cases rs with
    | none => cases us <;> rfl
    | some st => cases us <;> rfl

/-- Witness for C6: migrating a version-2 store holding one receipt. -/
theorem migration_idempotent_additive_witness :
    ∃ st', (onUpgradeNeeded
        { receiptsStore := some { indexes := ["createdAt"], records := [rA] },
          usersStore := some [] }).receiptsStore = some st' ∧
      st'.records = [rA] ∧
      ∀ i ∈ (["createdAt"] : List String), i ∈ st'.indexes :=
  migration_idempotent_additive.2.1
    { receiptsStore := some { indexes := ["createdAt"], records := [rA] },
      usersStore := some [] }
    { indexes := ["createdAt"], records := [rA] } rfl

/-! ## C9 — the recovery flow is ordered and non-skippable -/

/-- Modelled from the spec: the step names of the three-step recovery
flow of §4.2 ("State machine (recovery flow), three ordered steps,
non-skippable"); the driver lives in the application shell, which is not
among the repository's auth/persistence sources.  `done` is the
terminal "return to login" state. -/
inductive RecoveryStep where
  | email
  | question
  | newPassword
  | done
deriving DecidableEq, Repr

/-- Modelled from the spec: the flow's state — the current step, the
email accepted at the EMAIL step and the question text carried to the
QUESTION step. -/
structure RecoveryState where
  step : RecoveryStep
  email : String
  question : String
deriving DecidableEq, Repr

/-- The state in which the flow starts. -/
def initRecovery : RecoveryState :=
  { step := .email, email := "", question := "" }

/-- One user interaction with the flow. -/
inductive RecoveryInput where
  | submitEmail (e : String)
  | submitAnswer (a : String)
  | submitPassword (p : String)
deriving DecidableEq, Repr

/-- Modelled from the spec: one step of the recovery flow.  EMAIL looks
the user up and requires a configured security question; QUESTION runs
`verifySecurityAnswer`; NEW_PASSWORD runs `resetPassword` and, on
success, terminates.  A failed step surfaces its domain error and stays
where it is; only the NEW_PASSWORD step writes to the store. -/
def recoveryStep (hash : String → String) (st : RecoveryState)
    (inp : RecoveryInput) (db : DB) : RecoveryState × DB :=
  match st.step, inp with
  | .email, .submitEmail e =>
    match getUser (trim (toLowerCase e)) db with
    | none => (st, db)
    | some u =>
      match u.securityQuestion with
      | none => (st, db)
      | some q => ({ step := .question, email := e, question := q }, db)
  | .question, .submitAnswer a =>
    match verifySecurityAnswer hash st.email a db with
    | .error _ => (st, db)
    | .ok _ => ({ st with step := .newPassword }, db)
  | .newPassword, .submitPassword p =>
    match resetPassword hash st.email p db with
    | .error _ => (st, db)
    | .ok db' => ({ st with step := .done }, db')
  | _, _ => (st, db)

/-- Running the flow over a sequence of user interactions. -/
def runRecovery (hash : String → String) (inputs : List RecoveryInput)
    (st : RecoveryState) (db : DB) : RecoveryState × DB :=
  match inputs with
  | [] => (st, db)
  | inp :: rest =>
    runRecovery hash rest (recoveryStep hash st inp db).1
      (recoveryStep hash st inp db).2

/-- The flow invariant relative to the database `db0` the flow started
on: the store is untouched before the terminal state; QUESTION is
reachable only once the EMAIL step found the user; NEW_PASSWORD only
once some answer verified; the terminal state only via a successful
`resetPassword` for the verified email. -/
def recoveryInv (hash : String → String) (db0 : DB)
    (p : RecoveryState × DB) : Prop :=
  (p.1.step = .email → p.2 = db0) ∧
  (p.1.step = .question → p.2 = db0 ∧
    ∃ u, getUser (trim (toLowerCase p.1.email)) db0 = some u) ∧
  (p.1.step = .newPassword → p.2 = db0 ∧
    ∃ a u, verifySecurityAnswer hash p.1.email a db0 = .ok u) ∧
  (p.1.step = .done →
    (∃ a u, verifySecurityAnswer hash p.1.email a db0 = .ok u) ∧
    ∃ pw, resetPassword hash p.1.email pw db0 = .ok p.2)

lemma verify_ok_getUser {hash : String → String} {e A : String} {db : DB}
    {u : User} (h : verifySecurityAnswer hash e A db = .ok u) :
    getUser (trim (toLowerCase e)) db = some u := by
  unfold verifySecurityAnswer at h
  cases hg : getUser (trim (toLowerCase e)) db with
  | none => simp only [hg] at h; exact absurd h (by simp)
  | some v =>
    simp only [hg] at h
    cases hsa : v.securityAnswerHash with
    | none => rw [hsa] at h; exact absurd h (by simp)
    | some stored =>
      rw [hsa] at h
      have h' : (if stored = "" then
            (Except.error AuthError.recoveryNotConfigured : Except AuthError User)
          else if hash (trim (toLowerCase A)) ≠ stored then
            Except.error AuthError.incorrectAnswer
          else Except.ok v) = Except.ok u := h
      by_cases hz : stored = ""
      · rw [if_pos hz] at h'
        exact absurd h' (by simp)
      · rw [if_neg hz] at h'
        by_cases hcmp : hash (trim (toLowerCase A)) ≠ stored
        · rw [if_pos hcmp] at h'
          exact absurd h' (by simp)
        · rw [if_neg hcmp] at h'
          injection h' with h2
          rw [← h2]

lemma recoveryStep_inv (hash : String → String) (db0 : DB)
    (st : RecoveryState) (db : DB) (inp : RecoveryInput)
    (h : recoveryInv hash db0 (st, db)) :
    recoveryInv hash db0 (recoveryStep hash st inp db) := by
  obtain ⟨he, hq, hn, hd⟩ := h
  rcases st with ⟨step, em, qu⟩
  cases step with
  | email =>
    have hdb : db = db0 := he rfl
    subst hdb
    cases inp with
    | submitEmail e =>
      simp only [recoveryStep]
      cases hg : getUser (trim (toLowerCase e)) db with
      | none =>
        exact (⟨he, hq, hn, hd⟩ :
          recoveryInv hash db (⟨RecoveryStep.email, em, qu⟩, db))
      | some u =>
        show recoveryInv hash db
          (match u.securityQuestion with
           | none => ({ step := RecoveryStep.email, email := em, question := qu }, db)
           | some q => ({ step := RecoveryStep.question, email := e, question := q }, db))
        cases hsq : u.securityQuestion with
        | none =>
          exact (⟨he, hq, hn, hd⟩ :
            recoveryInv hash db (⟨RecoveryStep.email, em, qu⟩, db))
        | some q =>
          exact (⟨fun hcon => RecoveryStep.noConfusion hcon, fun _ => ⟨rfl, u, hg⟩,
              fun hcon => RecoveryStep.noConfusion hcon, fun hcon => RecoveryStep.noConfusion hcon⟩ :
            recoveryInv hash db (⟨RecoveryStep.question, e, q⟩, db))
    | submitAnswer a =>
      simp only [recoveryStep]
      exact (⟨he, hq, hn, hd⟩ :
        recoveryInv hash db (⟨RecoveryStep.email, em, qu⟩, db))
    | submitPassword p =>
      simp only [recoveryStep]
      exact (⟨he, hq, hn, hd⟩ :
        recoveryInv hash db (⟨RecoveryStep.email, em, qu⟩, db))
  | question =>
    obtain ⟨hdb, u0, hu0⟩ := hq rfl
    subst hdb
    cases inp with
    | submitEmail e =>
      simp only [recoveryStep]
      exact (⟨he, hq, hn, hd⟩ :
        recoveryInv hash db (⟨RecoveryStep.question, em, qu⟩, db))
    | submitAnswer a =>
      simp only [recoveryStep]
      cases hv : verifySecurityAnswer hash em a db with
      | error err =>
        exact (⟨he, hq, hn, hd⟩ :
          recoveryInv hash db (⟨RecoveryStep.question, em, qu⟩, db))
      | ok u =>
        exact (⟨fun hcon => RecoveryStep.noConfusion hcon, fun hcon => RecoveryStep.noConfusion hcon,
            fun _ => ⟨rfl, a, u, hv⟩, fun hcon => RecoveryStep.noConfusion hcon⟩ :
          recoveryInv hash db (⟨RecoveryStep.newPassword, em, qu⟩, db))
    | submitPassword p =>
      simp only [recoveryStep]
      exact (⟨he, hq, hn, hd⟩ :
        recoveryInv hash db (⟨RecoveryStep.question, em, qu⟩, db))
  | newPassword =>
    obtain ⟨hdb, a0, u0, hv0⟩ := hn rfl
    subst hdb
    cases inp with
    | submitEmail e =>
      simp only [recoveryStep]
      exact (⟨he, hq, hn, hd⟩ :
        recoveryInv hash db (⟨RecoveryStep.newPassword, em, qu⟩, db))
    | submitAnswer a =>
      simp only [recoveryStep]
      exact (⟨he, hq, hn, hd⟩ :
        recoveryInv hash db (⟨RecoveryStep.newPassword, em, qu⟩, db))
    | submitPassword p =>
      simp only [recoveryStep]
      cases hr : resetPassword hash em p db with
      | error err =>
        exact (⟨he, hq, hn, hd⟩ :
          recoveryInv hash db (⟨RecoveryStep.newPassword, em, qu⟩, db))
      | ok db' =>
        exact (⟨fun hcon => RecoveryStep.noConfusion hcon, fun hcon => RecoveryStep.noConfusion hcon,
            fun hcon => RecoveryStep.noConfusion hcon, fun _ => ⟨⟨a0, u0, hv0⟩, p, hr⟩⟩ :
          recoveryInv hash db (⟨RecoveryStep.done, em, qu⟩, db'))
  | done =>
    cases inp with
    | submitEmail e =>
      simp only [recoveryStep]
      exact (⟨he, hq, hn, hd⟩ :
        recoveryInv hash db0 (⟨RecoveryStep.done, em, qu⟩, db))
    | submitAnswer a =>
      simp only [recoveryStep]
      exact (⟨he, hq, hn, hd⟩ :
        recoveryInv hash db0 (⟨RecoveryStep.done, em, qu⟩, db))
    | submitPassword p =>
      simp only [recoveryStep]
      exact (⟨he, hq, hn, hd⟩ :
        recoveryInv hash db0 (⟨RecoveryStep.done, em, qu⟩, db))

lemma runRecovery_inv (hash : String → String) (db0 : DB)
    (inputs : List RecoveryInput) :
    ∀ st db, recoveryInv hash db0 (st, db) →
      recoveryInv hash db0 (runRecovery hash inputs st db) := by
  induction inputs with
  | nil => intro st db h; exact h
  | cons inp rest ih =>
    intro st db h
    exact ih (recoveryStep hash st inp db).1 (recoveryStep hash st inp db).2
      (recoveryStep_inv hash db0 st db inp h)

/-- C9 (modelled from the spec): in the recovery flow started on `db0`,
the QUESTION step is reachable only after the EMAIL step found the user,
the NEW_PASSWORD step only after some answer passed
`verifySecurityAnswer` against `db0`, and the store changes only by a
successful `resetPassword` for an email whose security answer was
verified in that same flow — a password is never persisted for a user
whose answer was not verified. -/
theorem recovery_flow_ordered (hash : String → String)
    (inputs : List RecoveryInput) (db0 : DB) :
    ((runRecovery hash inputs initRecovery db0).1.step = .question →
      ∃ u, getUser
        (trim (toLowerCase (runRecovery hash inputs initRecovery db0).1.email))
        db0 = some u) ∧
    ((runRecovery hash inputs initRecovery db0).1.step = .newPassword →
      ∃ a u, verifySecurityAnswer hash
        (runRecovery hash inputs initRecovery db0).1.email a db0 = .ok u) ∧
    ((runRecovery hash inputs initRecovery db0).2 ≠ db0 →
      ∃ a u pw,
        verifySecurityAnswer hash
          (runRecovery hash inputs initRecovery db0).1.email a db0 = .ok u ∧
        getUser
          (trim (toLowerCase (runRecovery hash inputs initRecovery db0).1.email))
          db0 = some u ∧
        resetPassword hash (runRecovery hash inputs initRecovery db0).1.email
          pw db0 = .ok (runRecovery hash inputs initRecovery db0).2) := by
  have hinv := runRecovery_inv hash db0 inputs initRecovery db0
    ⟨fun _ => rfl, fun hcon => RecoveryStep.noConfusion hcon, fun hcon => RecoveryStep.noConfusion hcon,
     fun hcon => RecoveryStep.noConfusion hcon⟩
  obtain ⟨he, hq, hn, hd⟩ := hinv
  refine ⟨fun h => (hq h).2, fun h => (hn h).2, fun hne => ?_⟩
  cases hstep : (runRecovery hash inputs initRecovery db0).1.step with
  | email => exact absurd (he hstep) hne
  | question => exact absurd (hq hstep).1 hne
  | newPassword => exact absurd (hn hstep).1 hne
  | done =>
    obtain ⟨⟨a, u, hv⟩, pw, hr⟩ := hd hstep
    exact ⟨a, u, pw, hv, verify_ok_getUser hv, hr⟩

/-- Witness for C9: a complete successful recovery run on `dbW`. -/
theorem recovery_flow_ordered_witness :
    ∃ a u pw,
      verifySecurityAnswer hW
        (runRecovery hW [RecoveryInput.submitEmail "a@x.com",
          RecoveryInput.submitAnswer "Rex ",
          RecoveryInput.submitPassword "NewPass1!"] initRecovery dbW).1.email
        a dbW = .ok u ∧
      getUser
        (trim (toLowerCase (runRecovery hW [RecoveryInput.submitEmail "a@x.com",
          RecoveryInput.submitAnswer "Rex ",
          RecoveryInput.submitPassword "NewPass1!"] initRecovery dbW).1.email))
        dbW = some u ∧
      resetPassword hW
        (runRecovery hW [RecoveryInput.submitEmail "a@x.com",
          RecoveryInput.submitAnswer "Rex ",
          RecoveryInput.submitPassword "NewPass1!"] initRecovery dbW).1.email
        pw dbW =
        .ok (runRecovery hW [RecoveryInput.submitEmail "a@x.com",
          RecoveryInput.submitAnswer "Rex ",
          RecoveryInput.submitPassword "NewPass1!"] initRecovery dbW).2 :=
  (recovery_flow_ordered hW
    [RecoveryInput.submitEmail "a@x.com", RecoveryInput.submitAnswer "Rex ",
     RecoveryInput.submitPassword "NewPass1!"] dbW).2.2 (by decide)

end TicketApp
